import Mathlib

/-!
Verification of the mesh informer subscription engine
(pkg/object/meshcontroller/informer/informer.go).

The development shallowly embeds the informer:

* documents and extracted sub-path values are strings; the external
  YAML-to-JSON converter and the gjson extractor are a parameter
  (`GJSONModel`), since they are third-party collaborators specified only at
  their interface boundary;
* the raw etcd event channel of a single-key watch is a list of
  `Option KV` (a `none` element is the deletion marker the storage layer
  delivers as a nil event pointer); a prefix watch channel is a list of
  batches, each batch an association list of key to `Option String`;
* the engine state (`InformerState`) carries the watcher table, the closed
  flag, and bookkeeping of raw watch handles (a fresh handle id per started
  watch, and the set of handles still open), so that closing behaviour is
  observable;
* Go maps are association lists with lookup, insert-or-replace and erase.
-/

/-- A raw key-value record as delivered by the store (mvccpb.KeyValue): the
informer reads only the value and the modification revision. -/
structure KV where
  value : String
  modRevision : Int
deriving DecidableEq, Repr

/-- GJSONPath is the type of inform path, in GJSON syntax (informer.go). -/
abbrev GJSONPath := String

/-- AllParts is the path of the whole structure (informer.go). -/
def AllParts : GJSONPath := ""

/-- EventUpdate is the update inform event (informer.go). -/
def EventUpdate : String := "Update"

/-- EventDelete is the delete inform event (informer.go). -/
def EventDelete : String := "Delete"

/-- Event is the type of inform event (informer.go `Event`): a tag and, for
updates, the raw record. -/
structure InformEvent where
  eventType : String
  rawKV : Option KV
deriving DecidableEq, Repr

/-- Interface model of the two external document tools used by the Differ:
`yamlToJSON` stands for yamljsontool.YAMLToJSON (`none` = parse error) and
`gjsonGet` for gjson.Get, whose result is kept opaque as a string; the Go
code only tests results for equality. -/
structure GJSONModel where
  yamlToJSON : String → Option String
  gjsonGet : String → GJSONPath → String

/-- comparePart (informer.go): the sub-path Differ. Empty path means bytewise
comparison of the raw documents; otherwise both documents are converted to
JSON (a conversion failure is logged as a BUG and reported as equal) and the
values extracted at the path are compared. -/
def comparePart (M : GJSONModel) (path : GJSONPath) (old new : String) : Bool :=
  if path = AllParts then
    old == new
  else
    match M.yamlToJSON old with
    | none => true
    | some oldJSON =>
      match M.yamlToJSON new with
      | none => true
      | some newJSON => M.gjsonGet oldJSON path == M.gjsonGet newJSON path

/-- A model in which no document parses: used to exhibit behaviour of the
Differ on malformed documents. The concrete documents fed to it below,
a lone opening brace and a lone opening bracket, are indeed malformed YAML. -/
def noParseModel : GJSONModel where
  yamlToJSON := fun _ => none
  gjsonGet := fun _ _ => ""

/-- A model in which every document parses (to itself) and extraction at any
path yields the raw JSON text unchanged: used as a concrete well-formed
instance for witnesses. -/
def idParseModel : GJSONModel where
  yamlToJSON := fun d => some d
  gjsonGet := fun j _ => j

/-- C7: for every pair of documents, well-formed or not, the Differ at the
empty sub-path expression returns exactly bytewise equality of the raw
documents. -/
theorem comparePart_empty_path_bytewise (M : GJSONModel) (d1 d2 : String) :
    comparePart M AllParts d1 d2 = (d1 == d2) := by
  simp [comparePart]

/-- C4: for every non-empty sub-path expression and every pair of well-formed
documents whose extracted values at that path coincide (they differ only
outside the addressed value), the Differ reports equality, so no spurious
notification is produced. -/
theorem comparePart_same_subpath_equal (M : GJSONModel) (p : GJSONPath)
    (d1 d2 j1 j2 : String) (hp : p ≠ AllParts)
    (h1 : M.yamlToJSON d1 = some j1) (h2 : M.yamlToJSON d2 = some j2)
    (heq : M.gjsonGet j1 p = M.gjsonGet j2 p) :
    comparePart M p d1 d2 = true := by
  simp [comparePart, hp, h1, h2, heq]

/-- Witness for C4 at a concrete input: under `idParseModel` the documents
parse and extraction at path a is the identity, so two bytewise equal
documents compare equal at the non-empty path. -/
theorem comparePart_same_subpath_equal_witness :
    comparePart idParseModel "a" "doc" "doc" = true :=
  comparePart_same_subpath_equal idParseModel "a" "doc" "doc" "doc" "doc"
    (by decide) rfl rfl rfl

/-- C5 counterexample: the claim says the Differ returns equal for malformed
documents at every path, the empty one included; but at the empty path the
code compares the raw bytes without parsing at all, so two distinct malformed
documents (here a lone opening brace and a lone opening bracket, both invalid
YAML, and unparseable in `noParseModel`) compare unequal. -/
theorem comparePart_malformed_empty_path_cex :
    noParseModel.yamlToJSON "\x7b" = none ∧
    noParseModel.yamlToJSON "[" = none ∧
    comparePart noParseModel AllParts "\x7b" "[" = false := by
  refine ⟨rfl, rfl, ?_⟩
  decide

/-- C5 amended: for every non-empty sub-path expression, if either document
fails to parse the Differ returns equal (suppressing the notification); at
the empty expression the Differ instead compares raw bytes without parsing. -/
theorem comparePart_malformed_nonempty_path (M : GJSONModel) (p : GJSONPath)
    (d1 d2 : String) (hp : p ≠ AllParts)
    (hbad : M.yamlToJSON d1 = none ∨ M.yamlToJSON d2 = none) :
    comparePart M p d1 d2 = true := by
  rcases hbad with h | h
  · simp [comparePart, hp, h]
  · cases hfirst : M.yamlToJSON d1 <;> simp [comparePart, hp, h, hfirst]

/-- Witness for the amended C5 at a concrete input: a malformed document at a
non-empty path yields equal. -/
theorem comparePart_malformed_nonempty_path_witness :
    comparePart noParseModel "a" "\x7b" "[" = true :=
  comparePart_malformed_nonempty_path noParseModel "a" "\x7b" "["
    (by decide) (Or.inl rfl)

/-- watchLoop: the body of the for-range loop of meshInformer.watch
(informer.go). The state is the last raw value seen (`oldValue` in the Go
code); the list is the sequence of raw events received from the channel
before it closed. A nil event delivers a Delete (value argument empty); a
value event is delivered as an Update only when `comparePart` reports
inequality, and `oldValue` is updated to the new raw value in either case.
The result is the list of events delivered to the callback together with a
flag recording whether a false callback return triggered stopWatchOneKey at
some point (the loop keeps draining the channel after a stop request). -/
def watchLoop (M : GJSONModel) (path : GJSONPath)
    (fn : InformEvent → String → Bool) :
    String → List (Option KV) → List InformEvent × Bool
  | _, [] => ([], false)
  | oldValue, none :: rest =>
    let cont := fn ⟨EventDelete, none⟩ ""
    let r := watchLoop M path fn oldValue rest
    (⟨EventDelete, none⟩ :: r.1, (!cont) || r.2)
  | oldValue, some ev :: rest =>
    let newValue := ev.value
    if comparePart M path oldValue newValue then
      watchLoop M path fn newValue rest
    else
      let cont := fn ⟨EventUpdate, some ev⟩ newValue
      let r := watchLoop M path fn newValue rest
      (⟨EventUpdate, some ev⟩ :: r.1, (!cont) || r.2)

/-- watch: the single-key subscription runner (meshInformer.watch,
informer.go). The priming step receives the first channel element and
unconditionally dereferences `event.Kv`: the Go code panics when the first
element is the nil deletion marker, or when the channel closes before
delivering anything (a receive on a closed channel yields nil); the
embedding returns `none` exactly on those inputs. Otherwise the first event
is delivered unconditionally as an Update, its raw value seeds `oldValue`,
and the loop processes the remaining events. -/
def watch (M : GJSONModel) (path : GJSONPath)
    (fn : InformEvent → String → Bool) (ch : List (Option KV)) :
    Option (List InformEvent × Bool) :=
  match ch with
  | [] => none
  | none :: _ => none
  | some ev :: rest =>
    let cont := fn ⟨EventUpdate, some ev⟩ ev.value
    let r := watchLoop M path fn ev.value rest
    some (⟨EventUpdate, some ev⟩ :: r.1, (!cont) || r.2)

/-- Modelled from the spec (for the refinement claim C1): the delivery
discipline the spec describes for an Active single-key runner. Given the
last raw value, a deletion is always delivered as a Delete; a value event is
delivered as an Update exactly when the Differ reports inequality against
the stored last value; and the stored last value becomes the new raw value
whether or not the event was delivered. -/
def specDeliveries (M : GJSONModel) (path : GJSONPath) :
    String → List (Option KV) → List InformEvent
  | _, [] => []
  | last, none :: rest =>
    ⟨EventDelete, none⟩ :: specDeliveries M path last rest
  | last, some ev :: rest =>
    if comparePart M path last ev.value then
      specDeliveries M path ev.value rest
    else
      ⟨EventUpdate, some ev⟩ :: specDeliveries M path ev.value rest

/-- With a callback that always answers true, the loop never requests a stop
and its deliveries coincide with the spec-side delivery discipline. -/
theorem watchLoop_always_true (M : GJSONModel) (path : GJSONPath)
    (fn : InformEvent → String → Bool) (hfn : ∀ e v, fn e v = true) :
    ∀ (rest : List (Option KV)) (oldValue : String),
      watchLoop M path fn oldValue rest =
        (specDeliveries M path oldValue rest, false)
  | [], _ => rfl
  | none :: rest, oldValue => by
    simp [watchLoop, specDeliveries, hfn,
      watchLoop_always_true M path fn hfn rest]
  | some ev :: rest, oldValue => by
    by_cases h : comparePart M path oldValue ev.value
    · simp [watchLoop, specDeliveries, h,
        watchLoop_always_true M path fn hfn rest]
    · simp [watchLoop, specDeliveries, h, hfn,
        watchLoop_always_true M path fn hfn rest]

/-- C1: for a single-key subscription whose callback always returns true, the
runner delivers the priming Update for the first raw event and then exactly
the deliveries of the spec-side discipline: one Delete per deletion marker,
one Update per value event whose sub-path the Differ reports changed against
the stored last raw value (which is advanced on every value event, delivered
or not), all in channel (commit) order; and no stop is ever requested. -/
theorem watch_always_true_deliveries (M : GJSONModel) (path : GJSONPath)
    (fn : InformEvent → String → Bool) (hfn : ∀ e v, fn e v = true)
    (ev : KV) (rest : List (Option KV)) :
    watch M path fn (some ev :: rest) =
      some (⟨EventUpdate, some ev⟩ :: specDeliveries M path ev.value rest,
        false) := by
  simp [watch, hfn, watchLoop_always_true M path fn hfn rest]

/-- Witness for C1 at a concrete input: a three-event stream (priming put,
an unchanged put, a changed put, then a delete) under the identity parse
model delivers the priming Update, the changed Update and the Delete. -/
theorem watch_always_true_deliveries_witness :
    watch idParseModel "a" (fun _ _ => true)
        [some ⟨"v1", 1⟩, some ⟨"v1", 2⟩, some ⟨"v2", 3⟩, none] =
      some ([⟨EventUpdate, some ⟨"v1", 1⟩⟩, ⟨EventUpdate, some ⟨"v2", 3⟩⟩,
        ⟨EventDelete, none⟩], false) := by
  rw [watch_always_true_deliveries idParseModel "a" (fun _ _ => true)
    (fun _ _ => rfl) ⟨"v1", 1⟩ [some ⟨"v1", 2⟩, some ⟨"v2", 3⟩, none]]
  decide

/-- C10: the single-key runner embedding is partial exactly at the priming
nil dereference: it returns `none` precisely when the channel closes before
delivering any event or the first element is the nil deletion marker, and it
is total (returns `some`) whenever the first element is a value event. -/
theorem watch_none_iff_bad_first (M : GJSONModel) (path : GJSONPath)
    (fn : InformEvent → String → Bool) (ch : List (Option KV)) :
    watch M path fn ch = none ↔ (ch = [] ∨ ch.head? = some none) := by
  cases ch with
  | nil => simp [watch]
  | cons e rest => cases e <;> simp [watch]

/-- Witness for C10 at concrete inputs: the runner reaches the nil
dereference on the empty stream, and is total on a stream whose first
element is a value event. -/
theorem watch_none_iff_bad_first_witness :
    watch idParseModel "a" (fun _ _ => true) [] = none ∧
    watch idParseModel "a" (fun _ _ => true) [none] = none ∧
    watch idParseModel "a" (fun _ _ => true) [some ⟨"v", 1⟩] ≠ none := by
  refine ⟨?_, ?_, ?_⟩
  · exact (watch_none_iff_bad_first idParseModel "a" (fun _ _ => true)
      []).mpr (Or.inl rfl)
  · exact (watch_none_iff_bad_first idParseModel "a" (fun _ _ => true)
      [none]).mpr (Or.inr rfl)
  · intro h
    have := (watch_none_iff_bad_first idParseModel "a" (fun _ _ => true)
      [some ⟨"v", 1⟩]).mp h
    simp at this

/-- Lookup in an association-list model of a Go map. -/
def alookup {α : Type} : List (String × α) → String → Option α
  | [], _ => none
  | e :: rest, k => if e.1 = k then some e.2 else alookup rest k

/-- Insert-or-replace in an association-list model of a Go map
(`m[k] = v`). -/
def ainsert {α : Type} : List (String × α) → String → α → List (String × α)
  | [], k, v => [(k, v)]
  | e :: rest, k, v =>
    if e.1 = k then (k, v) :: rest else e :: ainsert rest k v

/-- Erase in an association-list model of a Go map (`delete(m, k)`). -/
def aerase {α : Type} : List (String × α) → String → List (String × α)
  | [], _ => []
  | e :: rest, k => if e.1 = k then aerase rest k else e :: aerase rest k

/-- After erasing a key the lookup of that key fails. -/
theorem alookup_aerase {α : Type} (m : List (String × α)) (k : String) :
    alookup (aerase m k) k = none := by
  induction m with
  | nil => rfl
  | cons e rest ih =>
    by_cases h : e.1 = k
    · simpa [aerase, h] using ih
    · simpa [aerase, alookup, h] using ih

/-- One entry of a raw prefix batch applied to the snapshot and changed flag:
the body of the inner for-range loop of meshInformer.watchPrefix
(informer.go). A nil entry deletes the key and marks the batch changed; a
value entry equal to the stored value is skipped; otherwise the value is
stored and the batch is marked changed. -/
def prefixApplyEntry (st : List (String × String) × Bool)
    (e : String × Option String) : List (String × String) × Bool :=
  match e.2 with
  | none => (aerase st.1 e.1, true)
  | some v =>
    match alookup st.1 e.1 with
    | some oldValue =>
      if oldValue == v then st else (ainsert st.1 e.1 v, true)
    | none => (ainsert st.1 e.1 v, true)

/-- The priming batch seeds the snapshot from its non-nil entries
(meshInformer.watchPrefix, informer.go). -/
def seedSnapshot (batch : List (String × Option String)) :
    List (String × String) :=
  batch.foldl
    (fun m e =>
      match e.2 with
      | some v => ainsert m e.1 v
      | none => m)
    []

/-- watchPrefixLoop: the for-range loop of meshInformer.watchPrefix
(informer.go). Each batch is folded over the snapshot with a changed flag
starting at false; the callback is invoked with the whole updated snapshot
exactly when the flag ended true. The result lists the snapshots passed to
the callback, with a flag recording whether a false callback return
triggered stopWatchOneKey at some point. -/
def watchPrefixLoop (fn : List (String × String) → Bool) :
    List (String × String) → List (List (String × Option String)) →
      List (List (String × String)) × Bool
  | _, [] => ([], false)
  | kvs, batch :: rest =>
    let st := batch.foldl prefixApplyEntry (kvs, false)
    if st.2 then
      let cont := fn st.1
      let r := watchPrefixLoop fn st.1 rest
      (st.1 :: r.1, (!cont) || r.2)
    else
      watchPrefixLoop fn st.1 rest

/-- watchPrefix: the prefix subscription runner (meshInformer.watchPrefix,
informer.go). A receive on a closed channel yields the nil map, so an empty
channel still primes with the empty batch; the priming snapshot is delivered
to the callback unconditionally, then the loop processes the remaining
batches. -/
def watchPrefix (fn : List (String × String) → Bool)
    (ch : List (List (String × Option String))) :
    List (List (String × String)) × Bool :=
  let kvs := seedSnapshot (ch.headD [])
  let cont := fn kvs
  let r := watchPrefixLoop fn kvs ch.tail
  (kvs :: r.1, (!cont) || r.2)

/-- Applying one batch entry either leaves the state exactly as it was or
marks the changed flag. -/
theorem prefixApplyEntry_same_or_changed
    (st : List (String × String) × Bool) (e : String × Option String) :
    prefixApplyEntry st e = st ∨ (prefixApplyEntry st e).2 = true := by
  rcases e with ⟨k, v⟩
  cases v with
  | none => exact Or.inr rfl
  | some v =>
    cases h : alookup st.1 k with
    | none => exact Or.inr (by simp [prefixApplyEntry, h])
    | some w =>
      by_cases hw : w == v
      · exact Or.inl (by simp [prefixApplyEntry, h, hw])
      · exact Or.inr (by simp [prefixApplyEntry, h, hw])

/-- Once the changed flag is set, folding further entries keeps it set. -/
theorem foldl_prefixApplyEntry_mono (batch : List (String × Option String)) :
    ∀ st : List (String × String) × Bool, st.2 = true →
      (batch.foldl prefixApplyEntry st).2 = true := by
  induction batch with
  | nil => intro st h; simpa using h
  | cons e rest ih =>
    intro st h
    rcases prefixApplyEntry_same_or_changed st e with he | he
    · simpa [he] using ih st h
    · simpa using ih (prefixApplyEntry st e) he

/-- A batch whose fold ends with the changed flag false left the snapshot
untouched. -/
theorem foldl_prefixApplyEntry_unchanged
    (batch : List (String × Option String)) :
    ∀ kvs : List (String × String),
      (batch.foldl prefixApplyEntry (kvs, false)).2 = false →
      batch.foldl prefixApplyEntry (kvs, false) = (kvs, false) := by
  induction batch with
  | nil => intro kvs _; rfl
  | cons e rest ih =>
    intro kvs h
    rcases prefixApplyEntry_same_or_changed (kvs, false) e with he | he
    · rw [List.foldl_cons, he] at h ⊢
      exact ih kvs h
    · exfalso
      have : (rest.foldl prefixApplyEntry (prefixApplyEntry (kvs, false) e)).2
          = true := by
        rcases hsplit : prefixApplyEntry (kvs, false) e with ⟨m, b⟩
        rw [hsplit] at he
        subst he
        exact foldl_prefixApplyEntry_mono rest (m, true) rfl
      rw [List.foldl_cons] at h
      rw [this] at h
      exact absurd h (by decide)

/-- C6: per-step semantics of the prefix runner after priming, and the
concrete scenario of the spec. A deletion entry removes its key and marks
the batch changed; a value entry for an absent key, or one whose stored
value differs, overwrites the entry and marks the batch changed; an entry
equal to the stored value leaves snapshot and flag untouched; the callback
receives the entire current snapshot exactly when the batch marked a change
(an unchanged batch invokes nothing, a changed batch delivers the updated
snapshot); and over keys a=1 and b=2 the three invocations of the concrete
scenario receive a=1,b=2 then a=3,b=2 then a=3. -/
theorem watchPrefix_step_and_example :
    (∀ (st : List (String × String) × Bool) (k : String),
      prefixApplyEntry st (k, none) = (aerase st.1 k, true)) ∧
    (∀ (st : List (String × String) × Bool) (k v : String),
      alookup st.1 k = none →
      prefixApplyEntry st (k, some v) = (ainsert st.1 k v, true)) ∧
    (∀ (st : List (String × String) × Bool) (k v w : String),
      alookup st.1 k = some w → w ≠ v →
      prefixApplyEntry st (k, some v) = (ainsert st.1 k v, true)) ∧
    (∀ (st : List (String × String) × Bool) (k v : String),
      alookup st.1 k = some v → prefixApplyEntry st (k, some v) = st) ∧
    (∀ (fn : List (String × String) → Bool) (kvs : List (String × String))
      (batch : List (String × Option String))
      (rest : List (List (String × Option String))),
      (batch.foldl prefixApplyEntry (kvs, false)).2 = false →
      watchPrefixLoop fn kvs (batch :: rest) = watchPrefixLoop fn kvs rest) ∧
    (∀ (fn : List (String × String) → Bool) (kvs st : List (String × String))
      (batch : List (String × Option String))
      (rest : List (List (String × Option String))),
      batch.foldl prefixApplyEntry (kvs, false) = (st, true) →
      (watchPrefixLoop fn kvs (batch :: rest)).1 =
        st :: (watchPrefixLoop fn st rest).1) ∧
    (watchPrefix (fun _ => true)
        [[("a", some "1"), ("b", some "2")], [("a", some "3")],
          [("b", none)]] =
      ([[("a", "1"), ("b", "2")], [("a", "3"), ("b", "2")], [("a", "3")]],
        false)) := by
  refine ⟨?_, ?_, ?_, ?_, ?_, ?_, ?_⟩
  · intro st k
    rfl
  · intro st k v h
    simp [prefixApplyEntry, h]
  · intro st k v w h hne
    simp [prefixApplyEntry, h, hne]
  · intro st k v h
    simp [prefixApplyEntry, h]
  · intro fn kvs batch rest h
    have hfold := foldl_prefixApplyEntry_unchanged batch kvs h
    simp [watchPrefixLoop, hfold]
  · intro fn kvs st batch rest h
    simp [watchPrefixLoop, h]
  · decide

/-- Witness for C6 at concrete inputs: inserting a fresh key marks the batch
changed, and an entry equal to the stored value is a no-op. -/
theorem watchPrefix_step_and_example_witness :
    prefixApplyEntry (([] : List (String × String)), false) ("k", some "v") =
      ([("k", "v")], true) ∧
    prefixApplyEntry ([("k", "v")], false) ("k", some "v") =
      ([("k", "v")], false) := by
  constructor
  · exact watchPrefix_step_and_example.2.1 ([], false) "k" "v" rfl
  · exact watchPrefix_step_and_example.2.2.2.1 ([("k", "v")], false) "k" "v" rfl

/-- The engine state of meshInformer (informer.go): the watcher table maps a
watcher key to the raw watch handle registered for it (handles are numbered
in creation order by `nextHandle`), `closed` is the shutdown flag, and
`openHandles` records which created handles have not been closed, so that
closing behaviour is observable in the model. -/
structure InformerState where
  watchers : List (String × Nat)
  closed : Bool
  nextHandle : Nat
  openHandles : List Nat
deriving DecidableEq, Repr

/-- NewInformer (informer.go): a fresh engine with an empty watcher table. -/
def NewInformer : InformerState :=
  { watchers := [], closed := false, nextHandle := 0, openHandles := [] }

/-- The registration errors of the informer (informer.go):
ErrAlreadyWatched, ErrClosed, ErrNotFound. -/
inductive InformerErr where
  | alreadyWatched
  | closedInformer
  | notFound
deriving DecidableEq, Repr

/-- stopWatchOneKey (informer.go): under the engine lock, if the watcher key
is registered, close its raw handle and delete the table entry; otherwise do
nothing. -/
def stopWatchOneKey (inf : InformerState) (key : String) : InformerState :=
  match alookup inf.watchers key with
  | some h =>
    { inf with
      watchers := aerase inf.watchers key,
      openHandles := inf.openHandles.filter (fun x => !(x == h)) }
  | none => inf

/-- onSpecPart (informer.go): single-key registration. Under the engine
lock: fail with ErrClosed when the engine is shut down; fail with
ErrAlreadyWatched when the watcher key is taken; perform the baseline point
read and fail with ErrNotFound when the store has no record; otherwise
create a fresh raw watch handle, start the watch from the baseline revision
and record the handle under the watcher key. The store collaborator is
modelled as a total point-read function (its own error path is not taken);
the spawned runner goroutine is modelled separately by `watch`. -/
def onSpecPart (store : String → Option KV) (inf : InformerState)
    (storeKey watcherKey : String) : InformerState × Option InformerErr :=
  if inf.closed then
    (inf, some InformerErr.closedInformer)
  else if (alookup inf.watchers watcherKey).isSome then
    (inf, some InformerErr.alreadyWatched)
  else
    match store storeKey with
    | none => (inf, some InformerErr.notFound)
    | some _ =>
      ({ watchers := ainsert inf.watchers watcherKey inf.nextHandle,
         closed := inf.closed,
         nextHandle := inf.nextHandle + 1,
         openHandles := inf.nextHandle :: inf.openHandles }, none)

/-- Close (informer.go): under the engine lock, close the raw handle of
every entry of the watcher table and set the closed flag. The table entries
themselves are not deleted. -/
def Close (inf : InformerState) : InformerState :=
  { inf with
    openHandles :=
      inf.openHandles.filter
        (fun h => !(inf.watchers.any (fun w => w.2 == h))),
    closed := true }

/-- serviceSpecWatcherKey (informer.go): the watch key of a single-key
service spec subscription includes the gjson path. -/
def serviceSpecWatcherKey (serviceName : String) (gjsonPath : GJSONPath) :
    String :=
  "service-spec-" ++ serviceName ++ "-" ++ gjsonPath

/-- The watch key built inline by OnPartOfInstanceSpec (informer.go): it
includes the gjson path. -/
def instanceSpecWatcherKey (serviceName instanceID : String)
    (gjsonPath : GJSONPath) : String :=
  "service-instance-spec-" ++ serviceName ++ "-" ++ instanceID ++ "-"
    ++ gjsonPath

/-- The watch key built inline by OnPartOfServiceInstanceStatus
(informer.go): it includes the gjson path. -/
def instanceStatusWatcherKey (serviceName instanceID : String)
    (gjsonPath : GJSONPath) : String :=
  "service-instance-status-" ++ serviceName ++ "-" ++ instanceID ++ "-"
    ++ gjsonPath

/-- The watch key built inline by OnPartOfTenantSpec (informer.go): it is
derived from the tenant name only and does not include the gjson path. -/
def tenantWatcherKey (tenant : String) : String :=
  "tenant-" ++ tenant

/-- The watch key built inline by OnPartOfIngressSpec (informer.go): it is
derived from the ingress name only and does not include the gjson path. -/
def ingressWatcherKey (ingress : String) : String :=
  "ingress-" ++ ingress

/-- Modelled from the spec: layout.TenantSpecKey, the storage key derivation
for a tenant spec; the layout package is not among the given sources, and
the spec says only that each typed binding supplies the storage key
derivation for its resource kind, so any injective derivation serves. -/
def TenantSpecKey (tenantName : String) : String :=
  "tenant-spec-store-" ++ tenantName

/-- Modelled from the spec: layout.IngressSpecKey, the storage key
derivation for an ingress spec (see `TenantSpecKey`). -/
def IngressSpecKey (ingressName : String) : String :=
  "ingress-spec-store-" ++ ingressName

/-- OnPartOfTenantSpec (informer.go): registration of a single-key tenant
spec subscription; the gjson path argument is consumed only by the spawned
runner (modelled by `watch`), not by the registration bookkeeping, and in
particular it does not enter the watch key. -/
def OnPartOfTenantSpec (store : String → Option KV) (inf : InformerState)
    (tenant : String) (_gjsonPath : GJSONPath) :
    InformerState × Option InformerErr :=
  onSpecPart store inf (TenantSpecKey tenant) (tenantWatcherKey tenant)

/-- OnPartOfIngressSpec (informer.go): registration of a single-key ingress
spec subscription; as with `OnPartOfTenantSpec` the gjson path does not
enter the watch key. -/
def OnPartOfIngressSpec (store : String → Option KV) (inf : InformerState)
    (ingress : String) (_gjsonPath : GJSONPath) :
    InformerState × Option InformerErr :=
  onSpecPart store inf (IngressSpecKey ingress) (ingressWatcherKey ingress)

/-- A concrete one-record store used by the closed counterexamples and
witnesses below. -/
def oneKeyStore : String → Option KV := fun k =>
  if k = "store-key" then some { value := "doc", modRevision := 1 } else none

/-- A concrete store holding one tenant spec record, for the tenant watch
key counterexample. -/
def tenantStore : String → Option KV := fun k =>
  if k = TenantSpecKey "t" then some { value := "doc", modRevision := 1 }
  else none

/-- Appending to a fixed string on the left is injective. -/
theorem string_append_cancel_left (a : String) {b c : String}
    (h : a ++ b = a ++ c) : b = c := by
  apply String.ext
  have hd : a.data ++ b.data = a.data ++ c.data := by
    simpa using congrArg String.data h
  exact List.append_cancel_left hd

/-- Looking up a key just inserted finds the inserted value. -/
theorem alookup_ainsert {α : Type} (m : List (String × α)) (k : String)
    (v : α) : alookup (ainsert m k v) k = some v := by
  induction m with
  | nil => simp [ainsert, alookup]
  | cons e rest ih =>
    by_cases h : e.1 = k
    · simp [ainsert, alookup, h]
    · simp [ainsert, alookup, h, ih]

/-- C2 counterexample: the claim says global shutdown leaves zero entries
registered in the watcher table; but Close only closes the raw handles and
sets the closed flag, it never deletes the table entries, so an engine
closed while one subscription is live still has that entry registered. -/
theorem Close_keeps_entries_cex :
    (Close (onSpecPart oneKeyStore NewInformer "store-key" "w1").1).watchers
      ≠ [] := by
  decide

/-- C2 amended: closing an engine with live subscriptions closes the raw
handle of every registered watcher and marks the engine closed, so that any
subsequent registration fails with ErrClosed; the watcher table entries are
not removed (the table is unchanged by Close). -/
theorem Close_shutdown (store : String → Option KV) (inf : InformerState)
    (storeKey watcherKey : String) :
    (Close inf).closed = true ∧
    (Close inf).watchers = inf.watchers ∧
    (∀ w ∈ inf.watchers, w.2 ∉ (Close inf).openHandles) ∧
    onSpecPart store (Close inf) storeKey watcherKey =
      (Close inf, some InformerErr.closedInformer) := by
  refine ⟨rfl, rfl, ?_, ?_⟩
  · intro w hw hmem
    have hpred := (List.mem_filter.mp hmem).2
    have hany : inf.watchers.any (fun x => x.2 == w.2) = true :=
      List.any_eq_true.mpr ⟨w, hw, by simp⟩
    rw [hany] at hpred
    simp at hpred
  · simp [onSpecPart, Close]

/-- C3 counterexample: the claim says that for every resource kind two
registrations with the same identifiers but different path expressions get
different watch keys and so do not collide; for the tenant kind the watch
key ignores the path, so a second registration for the same tenant at a
different path fails with ErrAlreadyWatched. -/
theorem tenant_path_collision_cex :
    (OnPartOfTenantSpec tenantStore
        (OnPartOfTenantSpec tenantStore NewInformer "t" "observability").1
        "t" "resilience").2 = some InformerErr.alreadyWatched := by
  decide

/-- C3 amended: the watch key is a deterministic function of resource kind,
identifiers and path for the service spec, instance spec and instance
status kinds (same identifiers and different paths give different keys);
for the tenant and ingress kinds the key omits the path, so after a
successful registration a second one with the same identifier and any
path (a different one included) collides with ErrAlreadyWatched. -/
theorem watcherKey_path_separation :
    (∀ (s : String) (p1 p2 : GJSONPath), p1 ≠ p2 →
      serviceSpecWatcherKey s p1 ≠ serviceSpecWatcherKey s p2) ∧
    (∀ (s i : String) (p1 p2 : GJSONPath), p1 ≠ p2 →
      instanceSpecWatcherKey s i p1 ≠ instanceSpecWatcherKey s i p2) ∧
    (∀ (s i : String) (p1 p2 : GJSONPath), p1 ≠ p2 →
      instanceStatusWatcherKey s i p1 ≠ instanceStatusWatcherKey s i p2) ∧
    (∀ (store : String → Option KV) (inf : InformerState) (t : String)
      (p1 p2 : GJSONPath),
      (OnPartOfTenantSpec store inf t p1).2 = none →
      (OnPartOfTenantSpec store (OnPartOfTenantSpec store inf t p1).1
          t p2).2 = some InformerErr.alreadyWatched) ∧
    (∀ (store : String → Option KV) (inf : InformerState) (g : String)
      (p1 p2 : GJSONPath),
      (OnPartOfIngressSpec store inf g p1).2 = none →
      (OnPartOfIngressSpec store (OnPartOfIngressSpec store inf g p1).1
          g p2).2 = some InformerErr.alreadyWatched) := by
  refine ⟨?_, ?_, ?_, ?_, ?_⟩
  · intro s p1 p2 hne heq
    simp only [serviceSpecWatcherKey] at heq
    exact hne (string_append_cancel_left ("service-spec-" ++ s ++ "-") heq)
  · intro s i p1 p2 hne heq
    simp only [instanceSpecWatcherKey] at heq
    exact hne (string_append_cancel_left
      ("service-instance-spec-" ++ s ++ "-" ++ i ++ "-") heq)
  · intro s i p1 p2 hne heq
    simp only [instanceStatusWatcherKey] at heq
    exact hne (string_append_cancel_left
      ("service-instance-status-" ++ s ++ "-" ++ i ++ "-") heq)
  · intro store inf t p1 p2 h1
    by_cases hc : inf.closed
    · simp [OnPartOfTenantSpec, onSpecPart, hc] at h1
    · by_cases hw : (alookup inf.watchers (tenantWatcherKey t)).isSome
      · simp [OnPartOfTenantSpec, onSpecPart, hc, hw] at h1
      · cases hs : store (TenantSpecKey t) with
        | none => simp [OnPartOfTenantSpec, onSpecPart, hc, hw, hs] at h1
        | some kv =>
          simp [OnPartOfTenantSpec, onSpecPart, hc, hw, hs, alookup_ainsert]
  · intro store inf g p1 p2 h1
    by_cases hc : inf.closed
    · simp [OnPartOfIngressSpec, onSpecPart, hc] at h1
    · by_cases hw : (alookup inf.watchers (ingressWatcherKey g)).isSome
      · simp [OnPartOfIngressSpec, onSpecPart, hc, hw] at h1
      · cases hs : store (IngressSpecKey g) with
        | none => simp [OnPartOfIngressSpec, onSpecPart, hc, hw, hs] at h1
        | some kv =>
          simp [OnPartOfIngressSpec, onSpecPart, hc, hw, hs, alookup_ainsert]

/-- Witness for the amended C3 at concrete inputs: the service spec keys of
two paths differ, and a second tenant registration at a different path
collides. -/
theorem watcherKey_path_separation_witness :
    serviceSpecWatcherKey "s" "a" ≠ serviceSpecWatcherKey "s" "b" ∧
    (OnPartOfTenantSpec tenantStore
        (OnPartOfTenantSpec tenantStore NewInformer "t" "a").1 "t" "b").2 =
      some InformerErr.alreadyWatched := by
  constructor
  · exact watcherKey_path_separation.1 "s" "a" "b" (by decide)
  · exact watcherKey_path_separation.2.2.2.1 tenantStore NewInformer
      "t" "a" "b" (by decide)

/-- C8: a single-key registration whose baseline point read finds no record
fails with ErrNotFound and returns the engine state unchanged: no raw watch
handle is created and the watcher table keeps exactly its old entries. -/
theorem onSpecPart_notFound (store : String → Option KV)
    (inf : InformerState) (storeKey watcherKey : String)
    (hc : inf.closed = false)
    (hw : alookup inf.watchers watcherKey = none)
    (hs : store storeKey = none) :
    onSpecPart store inf storeKey watcherKey =
      (inf, some InformerErr.notFound) := by
  simp [onSpecPart, hc, hw, hs]

/-- Witness for C8 at a concrete input: registering a watch on a key absent
from the one-record store fails with ErrNotFound and leaves the fresh
engine untouched. -/
theorem onSpecPart_notFound_witness :
    onSpecPart oneKeyStore NewInformer "missing" "w1" =
      (NewInformer, some InformerErr.notFound) :=
  onSpecPart_notFound oneKeyStore NewInformer "missing" "w1" rfl rfl
    (by decide)

/-- C9: while a watch key is registered (and the engine is open),
registering it again fails with ErrAlreadyWatched; cancel-by-key removes
and closes the entry when present and is a no-op on any state where the key
is absent; and after the cancellation, re-registration of the same watch
key succeeds. -/
theorem watchKey_duplicate_and_cancel (store : String → Option KV)
    (inf : InformerState) (storeKey watcherKey : String) (kv : KV) (h : Nat)
    (hc : inf.closed = false)
    (hlive : alookup inf.watchers watcherKey = some h)
    (hs : store storeKey = some kv) :
    onSpecPart store inf storeKey watcherKey =
      (inf, some InformerErr.alreadyWatched) ∧
    alookup (stopWatchOneKey inf watcherKey).watchers watcherKey = none ∧
    (∀ inf2 : InformerState, alookup inf2.watchers watcherKey = none →
      stopWatchOneKey inf2 watcherKey = inf2) ∧
    (onSpecPart store (stopWatchOneKey inf watcherKey) storeKey
        watcherKey).2 = none := by
  refine ⟨?_, ?_, ?_, ?_⟩
  · simp [onSpecPart, hc, hlive]
  · simp [stopWatchOneKey, hlive, alookup_aerase]
  · intro inf2 h2
    simp [stopWatchOneKey, h2]
  · simp [onSpecPart, stopWatchOneKey, hlive, hc, alookup_aerase, hs]

/-- Witness for C9 at a concrete input: with one live registration, the
duplicate fails with ErrAlreadyWatched and re-registration after
cancel-by-key succeeds. -/
theorem watchKey_duplicate_and_cancel_witness :
    ((onSpecPart oneKeyStore
        (onSpecPart oneKeyStore NewInformer "store-key" "w1").1
        "store-key" "w1").2 = some InformerErr.alreadyWatched) ∧
    ((onSpecPart oneKeyStore
        (stopWatchOneKey
          (onSpecPart oneKeyStore NewInformer "store-key" "w1").1 "w1")
        "store-key" "w1").2 = none) := by
  have hmain := watchKey_duplicate_and_cancel oneKeyStore
    (onSpecPart oneKeyStore NewInformer "store-key" "w1").1 "store-key" "w1"
    { value := "doc", modRevision := 1 } 0 (by decide) (by decide) (by decide)
  exact ⟨by rw [hmain.1], hmain.2.2.2⟩
